import Mathlib

/-!
Shallow embedding of the rust-signals core: the change-cell (`Mutable` in
`src/signal/mutable.rs`), the single-slot channel (`Sender`/`Receiver` in
the same file), and the fan-out `Broadcaster` (`src/signal/broadcaster.rs`).

Wakers are modelled as task identifiers (`Nat`); invoking a waker is
modelled by appending its identifier to a "woken" output list.  Weak
references are modelled by an `alive` flag on each observer record together
with index-based storage: upgrading the weak reference succeeds exactly
when the record's `alive` flag is true.  `Async` mirrors
`futures_core::Async`.
-/

inductive Async (α : Type) where
  | Ready : α → Async α
  | Pending : Async α
deriving DecidableEq, Repr

/-- Embedding of `MutableSignalState` (mutable.rs lines 44-49): the
per-observer record holding the `has_changed` atomic flag and the stored
waker, plus an `alive` flag modelling whether the owning `Arc` is still
live (i.e. whether `Weak::upgrade` succeeds). -/
structure MutObs where
  hasChanged : Bool
  waker : Option Nat
  alive : Bool
deriving DecidableEq, Repr

/-- Embedding of `MutableState` (mutable.rs lines 12-17) together with the
storage of every observer record ever created: `receivers` holds the
indices (weak references) registered with the cell, `obs` is the backing
store indexed by those indices. -/
structure MutCell (α : Type) where
  value : α
  senders : Nat
  receivers : List Nat
  obs : List MutObs
deriving DecidableEq, Repr

/-- Embedding of the `retain` walk inside `MutableState::notify`
(mutable.rs lines 20-41): visit each registered receiver in order; a dead
entry (failed upgrade or out-of-range index) is dropped from the list; a
live entry has its `has_changed` flag stored `true` when `hc` is true, and
its stored waker is taken and invoked.  Returns the retained receiver
list, the updated store, and the list of woken task ids. -/
def notifyGo (hc : Bool) : List Nat → List MutObs → List Nat × List MutObs × List Nat
  | [], arr => ([], arr, [])
  | i :: rest, arr =>
    match arr.get? i with
    | some o =>
      if o.alive then
        let r := notifyGo hc rest (arr.set i ⟨if hc then true else o.hasChanged, none, o.alive⟩)
        (i :: r.1, r.2.1, o.waker.toList ++ r.2.2)
      else
        notifyGo hc rest arr
    | none => notifyGo hc rest arr

/-- Embedding of `MutableState::notify` (mutable.rs lines 20-41). -/
def MutCell.notify (c : MutCell α) (hc : Bool) : MutCell α × List Nat :=
  let r := notifyGo hc c.receivers c.obs
  ({ c with receivers := r.1, obs := r.2.1 }, r.2.2)

/-- Embedding of `Mutable::new` (mutable.rs lines 72-78). -/
def MutCell.new (v : α) : MutCell α := ⟨v, 1, [], []⟩

/-- Embedding of `MutableSignalState::new` (mutable.rs lines 52-65), the
common body of `Mutable::signal` and `Mutable::signal_cloned`: a fresh
observer record starts with `has_changed = true` and no stored waker, and
is pushed onto the cell's receiver list.  Returns the new observer's index
together with the updated cell. -/
def MutCell.newObserver (c : MutCell α) : Nat × MutCell α :=
  (c.obs.length,
   { c with obs := c.obs ++ [⟨true, none, true⟩],
            receivers := c.receivers ++ [c.obs.length] })

/-- Embedding of `Mutable::set` (mutable.rs lines 112-118). -/
def MutCell.set (c : MutCell α) (v : α) : MutCell α × List Nat :=
  MutCell.notify { c with value := v } true

/-- Embedding of `Mutable::replace` (mutable.rs lines 80-88); first
component is the replaced old value. -/
def MutCell.replace (c : MutCell α) (v : α) : α × MutCell α × List Nat :=
  (c.value, MutCell.notify { c with value := v } true)

/-- Embedding of `Mutable::replace_with` (mutable.rs lines 90-99).  The
closure receives `&mut state.value`; we model it as `f : α → α × α` where
`f a = (a', new)` means the closure mutated the current value to `a'` and
returned `new`.  The old (possibly mutated) value `a'` is returned and
`new` is stored. -/
def MutCell.replaceWith (c : MutCell α) (f : α → α × α) : α × MutCell α × List Nat :=
  ((f c.value).1, MutCell.notify { c with value := (f c.value).2 } true)

/-- Embedding of `Mutable::with_ref` (mutable.rs lines 121-124). -/
def MutCell.withRef (c : MutCell α) (f : α → β) : β := f c.value

/-- Embedding of `Mutable::get` / `Mutable::get_cloned` (mutable.rs lines
129-131, 141-143). -/
def MutCell.get (c : MutCell α) : α := c.value

/-- Embedding of `MutableSignal::poll_change` (mutable.rs lines 202-218)
and the textually identical `MutableSignalCloned::poll_change` (lines
230-246): swap the observer's `has_changed` flag to false; if it was true
deliver the current value; else if the sender count is zero deliver
`Ready(None)`; else store the caller's waker and return `Pending`. -/
def MutCell.pollChange (c : MutCell α) (i : Nat) (w : Nat) : Async (Option α) × MutCell α :=
  match c.obs.get? i with
  | none => (Async.Pending, c)
  | some o =>
    if o.hasChanged then
      (Async.Ready (some c.value),
       { c with obs := c.obs.set i ⟨false, o.waker, o.alive⟩ })
    else if c.senders = 0 then
      (Async.Ready none,
       { c with obs := c.obs.set i ⟨false, o.waker, o.alive⟩ })
    else
      (Async.Pending,
       { c with obs := c.obs.set i ⟨false, some w, o.alive⟩ })

/-- Embedding of `Drop for Mutable` (mutable.rs lines 181-193): decrement
the sender count; when it reaches zero and receivers are registered,
notify with `has_changed = false` and clear the receiver list. -/
def MutCell.dropSender (c : MutCell α) : MutCell α × List Nat :=
  let c1 : MutCell α := { c with senders := c.senders - 1 }
  if c1.senders = 0 ∧ 0 < c1.receivers.length then
    let r := MutCell.notify c1 false
    ({ r.1 with receivers := [] }, r.2)
  else
    (c1, [])

/-- Dropping a derived signal (`MutableSignal`): its `Arc` dies, so the
weak reference in the cell's receiver list stops upgrading. -/
def MutCell.dropObserver (c : MutCell α) (i : Nat) : MutCell α :=
  match c.obs.get? i with
  | some o => { c with obs := c.obs.set i ⟨o.hasChanged, o.waker, false⟩ }
  | none => c

/-- The stored wakers of the still-live registered receivers, in
registration order: the wake handles a full notify walk takes and
invokes. -/
def MutCell.liveWakers (c : MutCell α) : List Nat :=
  c.receivers.filterMap (fun i =>
    match c.obs.get? i with
    | some o => if o.alive then o.waker else none
    | none => none)

/-- A single write to the cell: `Mutable::set`, `Mutable::replace` or
`Mutable::replace_with`. -/
inductive WriteOp (α : Type) where
  | setv : α → WriteOp α
  | repl : α → WriteOp α
  | replWith : (α → α × α) → WriteOp α

/-- Apply a write operation to the cell (discarding the returned old
value), yielding the updated cell and the woken task ids. -/
def applyWrite (c : MutCell α) : WriteOp α → MutCell α × List Nat
  | .setv v => MutCell.set c v
  | .repl v => (MutCell.replace c v).2
  | .replWith f => (MutCell.replaceWith c f).2

/-- The value a write operation stores into the cell. -/
def writtenValue (c : MutCell α) : WriteOp α → α
  | .setv v => v
  | .repl v => v
  | .replWith f => (f c.value).2

/-- The lock-acquisition sequence of `Mutable::swap` (mutable.rs lines
101-110): `self.0.write()` is taken first, `other.0.write()` second, so
the acquisition order is caller order, not a canonical identity order. -/
def swapAcquireOrder (selfId otherId : Nat) : List Nat := [selfId, otherId]

/-- Embedding of the body of `Mutable::swap` (mutable.rs lines 101-110)
on the two cells' states: exchange the values, then notify both cells'
observers. -/
def MutCell.swapCells (c1 c2 : MutCell α) : (MutCell α × List Nat) × (MutCell α × List Nat) :=
  (MutCell.notify { c1 with value := c2.value } true,
   MutCell.notify { c2 with value := c1.value } true)

/-! ## The single-slot channel (`Sender` / `Receiver`) -/

/-- Embedding of `Inner` (mutable.rs lines 250-254). -/
structure ChanInner (α : Type) where
  value : Option α
  waker : Option Nat
  dropped : Bool
deriving DecidableEq, Repr

/-- The channel state: the consumer-owned `Inner` plus a flag modelling
whether the `Receiver`'s `Arc` is still alive (the `Sender` only holds a
`Weak`, so `receiverAlive` governs whether its upgrade succeeds). -/
structure Chan (α : Type) where
  inner : ChanInner α
  receiverAlive : Bool
deriving DecidableEq, Repr

/-- Embedding of `channel` (mutable.rs lines 325-341): the slot starts
holding the initial value. -/
def channelNew (v : α) : Chan α := ⟨⟨some v, none, false⟩, true⟩

/-- Embedding of `Sender::send` (mutable.rs lines 270-283): if the
receiver is alive, overwrite the slot, take and invoke any stored waker
(`Inner::notify`), and return `Ok`; otherwise return the value back. -/
def Chan.send (ch : Chan α) (v : α) : Except α Unit × Chan α × List Nat :=
  if ch.receiverAlive then
    (Except.ok (),
     ⟨⟨some v, none, ch.inner.dropped⟩, ch.receiverAlive⟩,
     ch.inner.waker.toList)
  else
    (Except.error v, ch, [])

/-- Embedding of `Drop for Sender` (mutable.rs lines 286-296): set the
`dropped` flag and take-and-invoke any stored waker. -/
def Chan.dropSender (ch : Chan α) : Chan α × List Nat :=
  if ch.receiverAlive then
    (⟨⟨ch.inner.value, none, true⟩, ch.receiverAlive⟩, ch.inner.waker.toList)
  else
    (ch, [])

/-- Dropping the `Receiver`: its `Arc` dies. -/
def Chan.dropReceiver (ch : Chan α) : Chan α := { ch with receiverAlive := false }

/-- Embedding of `Receiver::poll_change` (mutable.rs lines 307-322): take
the slot; if it held a value deliver it as changed; else if the producer
is gone deliver `Ready(None)`; else store the waker and return
`Pending`. -/
def Chan.pollChange (ch : Chan α) (w : Nat) : Async (Option α) × Chan α :=
  match ch.inner.value with
  | some a => (Async.Ready (some a), ⟨⟨none, ch.inner.waker, ch.inner.dropped⟩, ch.receiverAlive⟩)
  | none =>
    if ch.inner.dropped then
      (Async.Ready none, ch)
    else
      (Async.Pending, ⟨⟨none, some w, ch.inner.dropped⟩, ch.receiverAlive⟩)

/-! ## The Broadcaster -/

/-- Embedding of `BroadcasterStatus` (broadcaster.rs lines 8-11) plus the
`alive` flag modelling the weak reference from the notifier. -/
structure BObs where
  hasChanged : Bool
  waker : Option Nat
  alive : Bool
deriving DecidableEq, Repr

/-- Embedding of `BroadcasterSharedState` plus `BroadcasterNotifier`
(broadcaster.rs lines 17-20, 52-56).  The wrapped signal is represented by
its state `sig : σ`; its `poll_change` is a parameter
`pollSig : σ → Async (Option α) × σ` of every operation that drives it. -/
structure BState (σ α : Type) where
  sig : σ
  value : Option α
  isWaiting : Bool
  targets : List Nat
  obsArr : List BObs
deriving DecidableEq, Repr

/-- Embedding of the `retain` walk inside `BroadcasterNotifier::notify`
(broadcaster.rs lines 23-39): for each live target set `has_changed` to
true and take-and-invoke any stored waker; drop dead entries. -/
def bNotifyGo : List Nat → List BObs → List Nat × List BObs × List Nat
  | [], arr => ([], arr, [])
  | i :: rest, arr =>
    match arr.get? i with
    | some o =>
      if o.alive then
        let r := bNotifyGo rest (arr.set i ⟨true, none, o.alive⟩)
        (i :: r.1, r.2.1, o.waker.toList ++ r.2.2)
      else
        bNotifyGo rest arr
    | none => bNotifyGo rest arr

/-- Embedding of `BroadcasterNotifier::notify` (broadcaster.rs lines
23-39). -/
def BState.notify (st : BState σ α) : BState σ α × List Nat :=
  let r := bNotifyGo st.targets st.obsArr
  ({ st with targets := r.1, obsArr := r.2.1 }, r.2.2)

/-- Embedding of `Wake for BroadcasterNotifier` (broadcaster.rs lines
42-47): fan out the notification, then clear the `is_waiting` flag. -/
def BState.notifierWake (st : BState σ α) : BState σ α × List Nat :=
  let r := BState.notify st
  ({ r.1 with isWaiting := false }, r.2)

/-- Embedding of `BroadcasterSharedState::poll_underlying`
(broadcaster.rs lines 65-79): test-and-set `is_waiting`; if it was
already set do nothing; else poll the wrapped signal (with the notifier
as waker); on `Ready` store the value, fan out synchronously and clear
the flag; on `Pending` leave the flag set. -/
def BState.pollUnderlying (pollSig : σ → Async (Option α) × σ) (st : BState σ α) :
    BState σ α × List Nat :=
  if st.isWaiting then
    (st, [])
  else
    let pr := pollSig st.sig
    match pr.1 with
    | Async.Ready v =>
      let r := BState.notify { st with sig := pr.2, value := v, isWaiting := true }
      ({ r.1 with isWaiting := false }, r.2)
    | Async.Pending => ({ st with sig := pr.2, isWaiting := true }, [])

/-- Embedding of `Broadcaster::new` (broadcaster.rs lines 148-163). -/
def Broadcaster.new (s : σ) : BState σ α := ⟨s, none, false, [], []⟩

/-- Embedding of `BroadcasterState::new` (broadcaster.rs lines 94-109),
the common body of `Broadcaster::signal` and `signal_cloned`: a fresh
status with `has_changed = true` and no waker, registered into the
notifier's target list.  Returns the new observer's index. -/
def BState.newObserver (st : BState σ α) : Nat × BState σ α :=
  (st.obsArr.length,
   { st with obsArr := st.obsArr ++ [⟨true, none, true⟩],
             targets := st.targets ++ [st.obsArr.length] })

/-- The first statement of `BroadcasterState::poll_change`
(broadcaster.rs line 113): clear this observer's stored waker ("don't
need any potential waker as this task is now awake"). -/
def BState.clearWaker (st : BState σ α) (i : Nat) : BState σ α :=
  match st.obsArr.get? i with
  | some o => { st with obsArr := st.obsArr.set i ⟨o.hasChanged, none, o.alive⟩ }
  | none => st

/-- Embedding of `BroadcasterState::poll_change` (broadcaster.rs lines
111-131), the common body of `BroadcasterSignal::poll_change` and
`BroadcasterSignalCloned::poll_change`: clear this observer's stored
waker, drive `poll_underlying`, then swap the observer's `has_changed`
flag; if it was true deliver the cached value, else store the caller's
waker and return `Pending`. -/
def BState.pollChange (pollSig : σ → Async (Option α) × σ) (st : BState σ α) (i w : Nat) :
    Async (Option α) × BState σ α × List Nat :=
  let st0 := BState.clearWaker st i
  let pu := BState.pollUnderlying pollSig st0
  match pu.1.obsArr.get? i with
  | some o =>
    if o.hasChanged then
      (Async.Ready pu.1.value,
       { pu.1 with obsArr := pu.1.obsArr.set i ⟨false, o.waker, o.alive⟩ }, pu.2)
    else
      (Async.Pending,
       { pu.1 with obsArr := pu.1.obsArr.set i ⟨o.hasChanged, some w, o.alive⟩ }, pu.2)
  | none => (Async.Pending, pu.1, pu.2)

/-- A wrapped signal that counts how many times it has been polled and
always reports `Pending`: the "Signal that counts its own poll
invocations" of the spec's broadcaster test. -/
def countSig : Nat → Async (Option Nat) × Nat := fun n => (Async.Pending, n + 1)

/-- Drive a sequence of observer polls (observer index, waker) against a
broadcaster wrapping the counting signal. -/
def driveAll : List (Nat × Nat) → BState Nat Nat → BState Nat Nat
  | [], st => st
  | p :: rest, st => driveAll rest (BState.pollChange countSig st p.1 p.2).2.1

/-- Derive `k` observers from a broadcaster. -/
def addObservers : Nat → BState σ α → BState σ α
  | 0, st => st
  | n + 1, st => addObservers n (BState.newObserver st).2

/-! ## Theorems -/

theorem lt_length_of_get_some {β : Type} (l : List β) (i : Nat) (b : β)
    (h : l.get? i = some b) : i < l.length := by
  rcases List.get?_eq_some.mp h with ⟨hlt, _⟩
  exact hlt

/-- An entry that the notify walk's update maps to itself stays fixed
through the whole walk. -/
theorem notifyGo_stable (hc : Bool) (recv : List Nat) :
    ∀ (arr : List MutObs) (i : Nat) (o : MutObs),
      arr.get? i = some o → o.alive = true → o.waker = none →
      (hc = true → o.hasChanged = true) →
      ((notifyGo hc recv arr).2.1).get? i = some o := by
  induction recv with
  | nil =>
    intro arr i o h _ _ _
    simpa [notifyGo] using h
  | cons j rest ih =>
    intro arr i o h ha hw hhc
    by_cases hij : j = i
    · subst hij
      have hupd : (⟨if hc then true else o.hasChanged, none, true⟩ : MutObs) = o := by
        obtain ⟨oc, ow, oa⟩ := o
        simp only at hw ha
        cases hc with
        | false => simp [hw, ha]
        | true =>
          have hoc := hhc rfl
          simp only at hoc
          simp [hw, ha, hoc]
      simp only [notifyGo, h, ha, if_true]
      rw [hupd]
      exact ih _ _ _ (List.get?_set_eq_of_lt o (lt_length_of_get_some arr j o h)) ha hw hhc
    · simp only [notifyGo]
      cases hj : arr.get? j with
      | none => exact ih _ _ _ h ha hw hhc
      | some oj =>
        by_cases haj : oj.alive = true
        · simp only [haj, if_true]
          exact ih _ _ _ (by rw [List.get?_set_ne _ _ hij]; exact h) ha hw hhc
        · simp only [haj, if_false]
          exact ih _ _ _ h ha hw hhc

/-- After a notify walk that includes observer `i` (alive), the observer's
entry is exactly: flag forced true when `hc`, waker taken, still alive. -/
theorem notifyGo_visits (hc : Bool) (recv : List Nat) :
    ∀ (arr : List MutObs) (i : Nat) (o : MutObs),
      i ∈ recv → arr.get? i = some o → o.alive = true →
      ((notifyGo hc recv arr).2.1).get? i
        = some ⟨if hc then true else o.hasChanged, none, true⟩ := by
  induction recv with
  | nil => intro arr i o hmem _ _; cases hmem
  | cons j rest ih =>
    intro arr i o hmem h ha
    by_cases hij : j = i
    · subst hij
      simp only [notifyGo, h, ha, if_true]
      exact notifyGo_stable hc rest _ j _
        (List.get?_set_eq_of_lt _ (lt_length_of_get_some arr j o h))
        rfl rfl (by intro hhc; simp [hhc])
    · have hmem' : i ∈ rest := by
        rcases List.mem_cons.mp hmem with h1 | h1
        · exact absurd h1.symm hij
        · exact h1
      simp only [notifyGo]
      cases hj : arr.get? j with
      | none => exact ih _ _ _ hmem' h ha
      | some oj =>
        by_cases haj : oj.alive = true
        · simp only [haj, if_true]
          exact ih _ _ _ hmem' (by rw [List.get?_set_ne _ _ hij]; exact h) ha
        · simp only [haj, if_false]
          exact ih _ _ _ hmem' h ha

/-- A live registered observer stays registered through a notify walk. -/
theorem notifyGo_keeps_live (hc : Bool) (recv : List Nat) :
    ∀ (arr : List MutObs) (i : Nat) (o : MutObs),
      i ∈ recv → arr.get? i = some o → o.alive = true →
      i ∈ (notifyGo hc recv arr).1 := by
  induction recv with
  | nil => intro arr i o hmem _ _; cases hmem
  | cons j rest ih =>
    intro arr i o hmem h ha
    by_cases hij : j = i
    · subst hij
      simp only [notifyGo, h, ha, if_true]
      exact List.mem_cons_self _ _
    · have hmem' : i ∈ rest := by
        rcases List.mem_cons.mp hmem with h1 | h1
        · exact absurd h1.symm hij
        · exact h1
      simp only [notifyGo]
      cases hj : arr.get? j with
      | none => exact ih _ _ _ hmem' h ha
      | some oj =>
        by_cases haj : oj.alive = true
        · simp only [haj, if_true]
          exact List.mem_cons_of_mem _
            (ih _ _ _ hmem' (by rw [List.get?_set_ne _ _ hij]; exact h) ha)
        · simp only [haj, if_false]
          exact ih _ _ _ hmem' h ha

/-- On a duplicate-free receiver list, the notify walk wakes exactly the
stored wakers of the live registered observers, in registration order. -/
theorem notifyGo_woken (hc : Bool) (recv : List Nat) :
    ∀ (arr : List MutObs), recv.Nodup →
      (notifyGo hc recv arr).2.2
        = recv.filterMap (fun k =>
            match arr.get? k with
            | some o => if o.alive then o.waker else none
            | none => none) := by
  induction recv with
  | nil => intro arr _; simp [notifyGo]
  | cons j rest ih =>
    intro arr hnd
    have hndr : rest.Nodup := (List.nodup_cons.mp hnd).2
    have hjr : j ∉ rest := (List.nodup_cons.mp hnd).1
    cases hj : arr.get? j with
    | none =>
      simp only [notifyGo, hj, List.filterMap_cons]
      exact ih arr hndr
    | some oj =>
      by_cases haj : oj.alive = true
      · simp only [notifyGo, hj, List.filterMap_cons, if_pos haj]
        have harr : ∀ k ∈ rest,
            (fun k =>
              match (arr.set j ⟨if hc then true else oj.hasChanged, none, oj.alive⟩).get? k with
              | some o => if o.alive then o.waker else none
              | none => none) k
            = (fun k =>
              match arr.get? k with
              | some o => if o.alive then o.waker else none
              | none => none) k := by
          intro k hk
          have hjk : j ≠ k := fun e => hjr (e ▸ hk)
          simp only [List.get?_set_ne _ _ hjk]
        rw [ih _ hndr, List.filterMap_congr harr]
        cases hw : oj.waker with
        | none => simp
        | some w => simp
      · simp only [notifyGo, hj, List.filterMap_cons, if_neg haj]
        rw [ih arr hndr]

/-- Notify leaves the value and sender count untouched and
rewrites the receivers/observer store through the walk. -/
theorem notify_cell (c : MutCell α) (hc : Bool) :
    (MutCell.notify c hc).1.value = c.value
    ∧ (MutCell.notify c hc).1.senders = c.senders
    ∧ (MutCell.notify c hc).1.obs = (notifyGo hc c.receivers c.obs).2.1
    ∧ (MutCell.notify c hc).1.receivers = (notifyGo hc c.receivers c.obs).1
    ∧ (MutCell.notify c hc).2 = (notifyGo hc c.receivers c.obs).2.2 := by
  simp [MutCell.notify]

/-- A write operation is a value update followed by a notify walk. -/
theorem applyWrite_eq (c : MutCell α) (op : WriteOp α) :
    applyWrite c op = MutCell.notify { c with value := writtenValue c op } true := by
  cases op <;> rfl

theorem pollChange_ready (c : MutCell α) (i w : Nat) (o : MutObs)
    (h : c.obs.get? i = some o) (hflag : o.hasChanged = true) :
    MutCell.pollChange c i w
      = (Async.Ready (some c.value), { c with obs := c.obs.set i ⟨false, o.waker, o.alive⟩ }) := by
  have h2 : c.obs[i]? = some o := by simpa using h
  simp [MutCell.pollChange, h2, hflag]

theorem pollChange_terminated (c : MutCell α) (i w : Nat) (o : MutObs)
    (h : c.obs.get? i = some o) (hflag : o.hasChanged = false) (hs : c.senders = 0) :
    MutCell.pollChange c i w
      = (Async.Ready none, { c with obs := c.obs.set i ⟨false, o.waker, o.alive⟩ }) := by
  have h2 : c.obs[i]? = some o := by simpa using h
  simp [MutCell.pollChange, h2, hflag, hs]

theorem pollChange_pending (c : MutCell α) (i w : Nat) (o : MutObs)
    (h : c.obs.get? i = some o) (hflag : o.hasChanged = false) (hs : ¬ c.senders = 0) :
    MutCell.pollChange c i w
      = (Async.Pending, { c with obs := c.obs.set i ⟨false, some w, o.alive⟩ }) := by
  have h2 : c.obs[i]? = some o := by simpa using h
  simp [MutCell.pollChange, h2, hflag, hs]

/-- Claim C9: a cell created with `Mutable::new(v0)` and one derived
observer yields changed(`v0`) on the observer's first poll (the initial
value counts as a pending change because `has_changed` starts true), and
a second poll with no intervening write yields `Pending`. -/
theorem mutable_initial_poll_yields_initial_value (α : Type) (v0 : α) (w w2 : Nat) :
    (MutCell.pollChange (MutCell.newObserver (MutCell.new v0)).2
        (MutCell.newObserver (MutCell.new v0)).1 w).1 = Async.Ready (some v0)
    ∧ (MutCell.pollChange
        (MutCell.pollChange (MutCell.newObserver (MutCell.new v0)).2
          (MutCell.newObserver (MutCell.new v0)).1 w).2
        (MutCell.newObserver (MutCell.new v0)).1 w2).1 = Async.Pending := by
  exact ⟨rfl, rfl⟩

/-- Claim C10: `Mutable::swap` does exchange the two values and notify the
observers of both cells (here: both stored wakers are invoked), but its
lock-acquisition sequence is `self` first, `other` second — caller order,
not a canonical identity order — so `a.swap(&b)` and `b.swap(&a)` acquire
the two locks in opposite orders. -/
theorem swap_lock_order_caller_dependent :
    swapAcquireOrder 0 1 ≠ swapAcquireOrder 1 0
    ∧ (MutCell.swapCells (⟨3, 1, [0], [⟨false, some 11, true⟩]⟩ : MutCell Nat)
        ⟨4, 1, [0], [⟨false, some 22, true⟩]⟩).1.1.value = 4
    ∧ (MutCell.swapCells (⟨3, 1, [0], [⟨false, some 11, true⟩]⟩ : MutCell Nat)
        ⟨4, 1, [0], [⟨false, some 22, true⟩]⟩).2.1.value = 3
    ∧ (MutCell.swapCells (⟨3, 1, [0], [⟨false, some 11, true⟩]⟩ : MutCell Nat)
        ⟨4, 1, [0], [⟨false, some 22, true⟩]⟩).1.2 = [11]
    ∧ (MutCell.swapCells (⟨3, 1, [0], [⟨false, some 11, true⟩]⟩ : MutCell Nat)
        ⟨4, 1, [0], [⟨false, some 22, true⟩]⟩).2.2 = [22] := by
  decide

/-- Claim C4, counterexample: a cell with one sender and one freshly
derived observer (whose `has_changed` flag is still true); after the
sender is dropped, the observer's next poll returns changed(0), not
terminated. -/
theorem mutable_drop_fresh_observer_poll_not_terminated :
    (MutCell.pollChange
        (MutCell.dropSender (MutCell.newObserver (MutCell.new (0 : Nat))).2).1 0 0).1
      = Async.Ready (some 0)
    ∧ (MutCell.pollChange
        (MutCell.dropSender (MutCell.newObserver (MutCell.new (0 : Nat))).2).1 0 0).1
      ≠ Async.Ready none := by
  decide

/-- Claim C8, counterexample: `MutableSignal::poll_change` never clears
the stored waker at the start of a poll.  In a cell state where the
observer has both an unseen change and a stored waker (reachable when a
write's notify interleaves between a poll's flag check and its waker
store), the poll returns changed yet leaves the stale waker in place. -/
theorem mutable_poll_retains_stale_waker :
    (MutCell.pollChange (⟨0, 1, [0], [⟨true, some 7, true⟩]⟩ : MutCell Nat) 0 9).1
      = Async.Ready (some 0)
    ∧ ((MutCell.pollChange (⟨0, 1, [0], [⟨true, some 7, true⟩]⟩ : MutCell Nat) 0 9).2.obs.get? 0).map MutObs.waker
      = some (some 7) := by
  decide

/-- Claim C6: `Sender::send(v)` with the receiver alive overwrites the
slot (discarding any unconsumed value), takes and invokes any stored
waker, and returns `Ok`; with the receiver gone it returns `Err(v)` and
leaves everything unchanged. -/
theorem channel_send_overwrites_or_returns_value (α : Type) (ch : Chan α) (v : α) :
    (ch.receiverAlive = true →
        (Chan.send ch v).1 = Except.ok ()
      ∧ (Chan.send ch v).2.1.inner.value = some v
      ∧ (Chan.send ch v).2.1.inner.waker = none
      ∧ (Chan.send ch v).2.1.inner.dropped = ch.inner.dropped
      ∧ (Chan.send ch v).2.1.receiverAlive = true
      ∧ (Chan.send ch v).2.2 = ch.inner.waker.toList)
    ∧ (ch.receiverAlive = false →
        (Chan.send ch v).1 = Except.error v
      ∧ (Chan.send ch v).2.1 = ch
      ∧ (Chan.send ch v).2.2 = []) := by
  constructor <;> intro h <;> simp [Chan.send, h]

/-- Witness for `channel_send_overwrites_or_returns_value` at a concrete
channel, covering both the receiver-alive and receiver-dropped cases. -/
theorem channel_send_witness :
    ((channelNew (0 : Nat)).receiverAlive = true
      ∧ (Chan.send (channelNew (0 : Nat)) 5).1 = Except.ok ())
    ∧ ((Chan.dropReceiver (channelNew (0 : Nat))).receiverAlive = false
      ∧ (Chan.send (Chan.dropReceiver (channelNew (0 : Nat))) 5).1 = Except.error 5) := by
  exact ⟨⟨rfl, ((channel_send_overwrites_or_returns_value Nat (channelNew 0) 5).1 rfl).1⟩,
         ⟨rfl, ((channel_send_overwrites_or_returns_value Nat
            (Chan.dropReceiver (channelNew 0)) 5).2 rfl).1⟩⟩

/-- Claim C7: `Receiver::poll_change` takes and delivers a stored value as
changed (so the first poll after `channel(initial)` yields the initial
value); on an empty slot it yields terminated when the producer is gone
and otherwise stores the waker and returns `Pending`.  Concretely:
create(0); send(1); send(2); the next poll yields changed(2), and after
the sender is dropped the following poll yields terminated. -/
theorem channel_receiver_poll_spec (α : Type) (ch : Chan α) (v0 : α) (w : Nat) :
    (∀ a, ch.inner.value = some a →
        Chan.pollChange ch w
          = (Async.Ready (some a), ⟨⟨none, ch.inner.waker, ch.inner.dropped⟩, ch.receiverAlive⟩))
    ∧ (ch.inner.value = none → ch.inner.dropped = true →
        Chan.pollChange ch w = (Async.Ready none, ch))
    ∧ (ch.inner.value = none → ch.inner.dropped = false →
        Chan.pollChange ch w
          = (Async.Pending, ⟨⟨none, some w, ch.inner.dropped⟩, ch.receiverAlive⟩))
    ∧ (Chan.pollChange (channelNew v0) w).1 = Async.Ready (some v0)
    ∧ (Chan.pollChange (Chan.send (Chan.send (channelNew (0 : Nat)) 1).2.1 2).2.1 3).1
        = Async.Ready (some 2)
    ∧ (Chan.pollChange
        (Chan.dropSender
          (Chan.pollChange (Chan.send (Chan.send (channelNew (0 : Nat)) 1).2.1 2).2.1 3).2).1 4).1
        = Async.Ready none := by
  refine ⟨?_, ?_, ?_, rfl, by decide, by decide⟩
  · intro a h
    simp [Chan.pollChange, h]
  · intro h1 h2
    simp [Chan.pollChange, h1, h2]
  · intro h1 h2
    simp [Chan.pollChange, h1, h2]

/-- Witness for `channel_receiver_poll_spec` at a concrete channel. -/
theorem channel_receiver_poll_witness :
    (channelNew (0 : Nat)).inner.value = some 0
    ∧ Chan.pollChange (channelNew (0 : Nat)) 3 = (Async.Ready (some 0), ⟨⟨none, none, false⟩, true⟩) := by
  exact ⟨rfl, (channel_receiver_poll_spec Nat (channelNew 0) 0 3).1 0 rfl⟩

/-- Polling an observer whose flag is set delivers the current value and
consumes the flag: the next poll (senders still live) is `Pending`, and
other observers' entries are untouched. -/
theorem pollChange_twice_pending (c : MutCell α) (i w w2 : Nat) (o : MutObs)
    (h : c.obs.get? i = some o) (hflag : o.hasChanged = true) (hs : ¬ c.senders = 0) :
    (MutCell.pollChange c i w).1 = Async.Ready (some c.value)
    ∧ (MutCell.pollChange (MutCell.pollChange c i w).2 i w2).1 = Async.Pending
    ∧ ∀ j, ¬ j = i →
        (MutCell.pollChange c i w).2.obs.get? j = c.obs.get? j := by
  rw [pollChange_ready c i w o h hflag]
  refine ⟨rfl, ?_, ?_⟩
  · have hlt : i < c.obs.length := lt_length_of_get_some _ i _ h
    have h2 : (c.obs.set i ⟨false, o.waker, o.alive⟩).get? i = some ⟨false, o.waker, o.alive⟩ :=
      List.get?_set_eq_of_lt _ hlt
    show (MutCell.pollChange { c with obs := c.obs.set i ⟨false, o.waker, o.alive⟩ } i w2).1
      = Async.Pending
    rw [pollChange_pending { c with obs := c.obs.set i ⟨false, o.waker, o.alive⟩ } i w2
      ⟨false, o.waker, o.alive⟩ h2 rfl hs]
  · intro j hj
    exact List.get?_set_ne _ _ (fun e => hj e.symm)

/-- Polling an observer with a consumed flag on a cell whose senders are
gone yields terminated, and so does every subsequent poll. -/
theorem pollChange_twice_terminated (c : MutCell α) (i w w2 : Nat) (o : MutObs)
    (h : c.obs.get? i = some o) (hflag : o.hasChanged = false) (hs : c.senders = 0) :
    (MutCell.pollChange c i w).1 = Async.Ready none
    ∧ (MutCell.pollChange (MutCell.pollChange c i w).2 i w2).1 = Async.Ready none := by
  rw [pollChange_terminated c i w o h hflag hs]
  refine ⟨rfl, ?_⟩
  have hlt : i < c.obs.length := lt_length_of_get_some _ i _ h
  have h2 : (c.obs.set i ⟨false, o.waker, o.alive⟩).get? i = some ⟨false, o.waker, o.alive⟩ :=
    List.get?_set_eq_of_lt _ hlt
  show (MutCell.pollChange { c with obs := c.obs.set i ⟨false, o.waker, o.alive⟩ } i w2).1
    = Async.Ready none
  rw [pollChange_terminated { c with obs := c.obs.set i ⟨false, o.waker, o.alive⟩ } i w2
    ⟨false, o.waker, o.alive⟩ h2 rfl hs]

/-- Claim C3: after a single write (set / replace / replace_with), each
live registered observer's next poll delivers the newly written value,
exactly once: a further poll with no intervening write is `Pending`, and
polling one observer does not consume any other observer's change. -/
theorem mutable_write_fanout_delivers_once (α : Type) (c : MutCell α) (op : WriteOp α)
    (i w w2 : Nat) (o : MutObs)
    (hobs : c.obs.get? i = some o) (halive : o.alive = true)
    (hreg : i ∈ c.receivers) (hs : ¬ c.senders = 0) :
    (MutCell.pollChange (applyWrite c op).1 i w).1
        = Async.Ready (some (writtenValue c op))
    ∧ (MutCell.pollChange (MutCell.pollChange (applyWrite c op).1 i w).2 i w2).1
        = Async.Pending
    ∧ ∀ j, ¬ j = i →
        (MutCell.pollChange (applyWrite c op).1 i w).2.obs.get? j
          = (applyWrite c op).1.obs.get? j := by
  rw [applyWrite_eq]
  have hval : (MutCell.notify { c with value := writtenValue c op } true).1.value
      = writtenValue c op := (notify_cell _ _).1
  have hsend : (MutCell.notify { c with value := writtenValue c op } true).1.senders
      = c.senders := (notify_cell _ _).2.1
  have hobs1 : (MutCell.notify { c with value := writtenValue c op } true).1.obs.get? i
      = some ⟨true, none, true⟩ := by
    rw [(notify_cell _ _).2.2.1]
    simpa using notifyGo_visits true c.receivers c.obs i o hreg hobs halive
  obtain ⟨p1, p2, p3⟩ := pollChange_twice_pending _ i w w2 _ hobs1 rfl
    (by rw [hsend]; exact hs)
  exact ⟨by rw [p1, hval], p2, p3⟩

/-- Witness for `mutable_write_fanout_delivers_once`: a fresh cell(0) with
one observer, written with set(5). -/
theorem mutable_write_fanout_witness :
    (MutCell.pollChange (applyWrite (MutCell.newObserver (MutCell.new 0)).2
        (WriteOp.setv 5)).1 0 1).1 = Async.Ready (some 5)
    ∧ (MutCell.pollChange (MutCell.pollChange
        (applyWrite (MutCell.newObserver (MutCell.new 0)).2 (WriteOp.setv 5)).1 0 1).2 0 2).1
      = Async.Pending := by
  have h := mutable_write_fanout_delivers_once Nat (MutCell.newObserver (MutCell.new 0)).2
    (WriteOp.setv 5) 0 1 2 ⟨true, none, true⟩ rfl rfl (by decide) (by decide)
  exact ⟨h.1, h.2.1⟩

/-- Claim C5: two writes with no poll in between collapse to the latest
value: the observer's next poll delivers only the second value, and a
further poll is `Pending` — the first value is never delivered. -/
theorem mutable_latest_write_wins (α : Type) (c : MutCell α) (v1 v2 : α)
    (i w w2 : Nat) (o : MutObs)
    (hobs : c.obs.get? i = some o) (halive : o.alive = true)
    (hreg : i ∈ c.receivers) (hs : ¬ c.senders = 0) :
    (MutCell.pollChange (MutCell.set (MutCell.set c v1).1 v2).1 i w).1
        = Async.Ready (some v2)
    ∧ (MutCell.pollChange
        (MutCell.pollChange (MutCell.set (MutCell.set c v1).1 v2).1 i w).2 i w2).1
        = Async.Pending := by
  have hobs1 : (MutCell.set c v1).1.obs.get? i = some ⟨true, none, true⟩ := by
    simp only [MutCell.set]
    rw [(notify_cell _ _).2.2.1]
    simpa using notifyGo_visits true c.receivers c.obs i o hreg hobs halive
  have hreg1 : i ∈ (MutCell.set c v1).1.receivers := by
    simp only [MutCell.set]
    rw [(notify_cell _ _).2.2.2.1]
    exact notifyGo_keeps_live true c.receivers c.obs i o hreg hobs halive
  have hobs2 : (MutCell.set (MutCell.set c v1).1 v2).1.obs.get? i = some ⟨true, none, true⟩ := by
    simp only [MutCell.set]
    rw [(notify_cell _ _).2.2.1]
    simpa using notifyGo_visits true (MutCell.set c v1).1.receivers (MutCell.set c v1).1.obs
      i ⟨true, none, true⟩ hreg1 hobs1 rfl
  have hval2 : (MutCell.set (MutCell.set c v1).1 v2).1.value = v2 := by
    simp [MutCell.set, MutCell.notify]
  have hsend2 : (MutCell.set (MutCell.set c v1).1 v2).1.senders = c.senders := by
    simp [MutCell.set, MutCell.notify]
  obtain ⟨p1, p2, _⟩ := pollChange_twice_pending _ i w w2 _ hobs2 rfl
    (by rw [hsend2]; exact hs)
  exact ⟨by rw [p1, hval2], p2⟩

/-- Witness for `mutable_latest_write_wins`: cell(0) with one observer,
set(1) then set(2). -/
theorem mutable_latest_write_wins_witness :
    (MutCell.pollChange (MutCell.set (MutCell.set (MutCell.newObserver (MutCell.new 0)).2 1).1 2).1 0 1).1
        = Async.Ready (some 2)
    ∧ (MutCell.pollChange
        (MutCell.pollChange (MutCell.set (MutCell.set (MutCell.newObserver (MutCell.new 0)).2 1).1 2).1 0 1).2 0 2).1
        = Async.Pending := by
  exact mutable_latest_write_wins Nat (MutCell.newObserver (MutCell.new 0)).2 1 2 0 1 2
    ⟨true, none, true⟩ rfl rfl (by decide) (by decide)

/-- Claim C4 (amended): dropping the last sender of a cell clears the
receiver collection after taking-and-invoking each still-registered live
receiver's stored waker exactly once (the woken list is exactly the live
registered wakers, in registration order), and an observer whose pending
change was already consumed (`has_changed = false`) sees terminated on its
next poll and on every subsequent poll. -/
theorem mutable_last_sender_drop_terminates (α : Type) (c : MutCell α)
    (i w w2 : Nat) (o : MutObs)
    (hobs : c.obs.get? i = some o) (halive : o.alive = true) (hflag : o.hasChanged = false)
    (hreg : i ∈ c.receivers) (hs : c.senders = 1) (hnd : c.receivers.Nodup) :
    (MutCell.dropSender c).1.senders = 0
    ∧ (MutCell.dropSender c).1.receivers = []
    ∧ (MutCell.dropSender c).2 = MutCell.liveWakers c
    ∧ (MutCell.pollChange (MutCell.dropSender c).1 i w).1 = Async.Ready none
    ∧ (MutCell.pollChange (MutCell.pollChange (MutCell.dropSender c).1 i w).2 i w2).1
        = Async.Ready none := by
  have hcond : ({ c with senders := c.senders - 1 } : MutCell α).senders = 0
      ∧ 0 < ({ c with senders := c.senders - 1 } : MutCell α).receivers.length := by
    refine ⟨by simp [hs], ?_⟩
    simpa using List.length_pos_of_mem hreg
  have hdrop : MutCell.dropSender c
      = ({ (MutCell.notify { c with senders := c.senders - 1 } false).1 with receivers := [] },
         (MutCell.notify { c with senders := c.senders - 1 } false).2) := by
    simp only [MutCell.dropSender]
    rw [if_pos hcond]
  have h1 : (MutCell.dropSender c).1.senders = 0 := by
    rw [hdrop]
    show (MutCell.notify { c with senders := c.senders - 1 } false).1.senders = 0
    rw [(notify_cell _ _).2.1]
    simp [hs]
  have h2 : (MutCell.dropSender c).1.receivers = [] := by
    rw [hdrop]
  have h3 : (MutCell.dropSender c).2 = MutCell.liveWakers c := by
    rw [hdrop]
    show (MutCell.notify { c with senders := c.senders - 1 } false).2 = MutCell.liveWakers c
    rw [(notify_cell _ _).2.2.2.2]
    rw [notifyGo_woken false c.receivers c.obs hnd]
    rfl
  have hobsd : (MutCell.dropSender c).1.obs.get? i = some ⟨false, none, true⟩ := by
    rw [hdrop]
    show (MutCell.notify { c with senders := c.senders - 1 } false).1.obs.get? i
      = some ⟨false, none, true⟩
    rw [(notify_cell _ _).2.2.1]
    simpa [hflag] using notifyGo_visits false c.receivers c.obs i o hreg hobs halive
  obtain ⟨p1, p2⟩ := pollChange_twice_terminated (MutCell.dropSender c).1 i w w2
    ⟨false, none, true⟩ hobsd rfl h1
  exact ⟨h1, h2, h3, p1, p2⟩

/-- Witness for `mutable_last_sender_drop_terminates`: a cell holding 0
with one sender and one observer that has already consumed the initial
change and parked a waker (task 7). -/
theorem mutable_last_sender_drop_witness :
    (MutCell.dropSender (⟨0, 1, [0], [⟨false, some 7, true⟩]⟩ : MutCell Nat)).2
        = MutCell.liveWakers (⟨0, 1, [0], [⟨false, some 7, true⟩]⟩ : MutCell Nat)
    ∧ (MutCell.pollChange
        (MutCell.dropSender (⟨0, 1, [0], [⟨false, some 7, true⟩]⟩ : MutCell Nat)).1 0 1).1
        = Async.Ready none
    ∧ (MutCell.pollChange (MutCell.pollChange
        (MutCell.dropSender (⟨0, 1, [0], [⟨false, some 7, true⟩]⟩ : MutCell Nat)).1 0 1).2 0 2).1
        = Async.Ready none := by
  have h := mutable_last_sender_drop_terminates Nat ⟨0, 1, [0], [⟨false, some 7, true⟩]⟩
    0 1 2 ⟨false, some 7, true⟩ rfl rfl rfl (by decide) rfl (by decide)
  exact ⟨h.2.2.1, h.2.2.2.1, h.2.2.2.2⟩

/-- A broadcaster observer entry whose waker slot is empty keeps an empty
waker slot (and its aliveness) through a notifier fan-out walk. -/
theorem bNotifyGo_waker_none (recv : List Nat) :
    ∀ (arr : List BObs) (i : Nat) (o : BObs),
      arr.get? i = some o → o.waker = none →
      ∃ b, ((bNotifyGo recv arr).2.1).get? i = some ⟨b, none, o.alive⟩ := by
  induction recv with
  | nil =>
    intro arr i o h hw
    refine ⟨o.hasChanged, ?_⟩
    simp only [bNotifyGo]
    rw [h]
    obtain ⟨oc, ow, oa⟩ := o
    simp only at hw
    simp [hw]
  | cons j rest ih =>
    intro arr i o h hw
    by_cases hij : j = i
    · subst hij
      by_cases ha : o.alive = true
      · simp only [bNotifyGo, h, if_pos ha]
        obtain ⟨b, hb⟩ := ih (arr.set j ⟨true, none, o.alive⟩) j ⟨true, none, o.alive⟩
          (List.get?_set_eq_of_lt _ (lt_length_of_get_some arr j o h)) rfl
        exact ⟨b, hb⟩
      · simp only [bNotifyGo, h, if_neg ha]
        exact ih arr j o h hw
    · cases hj : arr.get? j with
      | none =>
        simp only [bNotifyGo, hj]
        exact ih arr i o h hw
      | some oj =>
        by_cases haj : oj.alive = true
        · simp only [bNotifyGo, hj, if_pos haj]
          exact ih _ i o (by rw [List.get?_set_ne _ _ hij]; exact h) hw
        · simp only [bNotifyGo, hj, if_neg haj]
          exact ih arr i o h hw

/-- Underlying polling can only touch observer entries through the
notifier fan-out, so an entry with an empty waker slot keeps it empty. -/
theorem pollUnderlying_waker_none {σ α : Type} (pollSig : σ → Async (Option α) × σ)
    (st : BState σ α) (i : Nat) (o : BObs)
    (h : st.obsArr.get? i = some o) (hw : o.waker = none) :
    ∃ b, (BState.pollUnderlying pollSig st).1.obsArr.get? i = some ⟨b, none, o.alive⟩ := by
  by_cases hwait : st.isWaiting = true
  · refine ⟨o.hasChanged, ?_⟩
    simp only [BState.pollUnderlying, if_pos hwait]
    rw [h]
    obtain ⟨oc, ow, oa⟩ := o
    simp only at hw
    simp [hw]
  · rcases hp : pollSig st.sig with ⟨res, s2⟩
    cases res with
    | Ready v =>
      simp only [BState.pollUnderlying, if_neg hwait, hp, BState.notify]
      exact bNotifyGo_waker_none st.targets st.obsArr i o h hw
    | Pending =>
      refine ⟨o.hasChanged, ?_⟩
      simp only [BState.pollUnderlying, if_neg hwait, hp]
      rw [h]
      obtain ⟨oc, ow, oa⟩ := o
      simp only at hw
      simp [hw]

/-- Unfolding equation for `BState.pollChange` once the observer's entry
after `poll_underlying` is known. -/
theorem bPollChange_of_get {σ α : Type} (pollSig : σ → Async (Option α) × σ)
    (st : BState σ α) (i w : Nat) (o2 : BObs)
    (hpu : (BState.pollUnderlying pollSig (BState.clearWaker st i)).1.obsArr.get? i = some o2) :
    BState.pollChange pollSig st i w
      = if o2.hasChanged then
          (Async.Ready (BState.pollUnderlying pollSig (BState.clearWaker st i)).1.value,
           { (BState.pollUnderlying pollSig (BState.clearWaker st i)).1 with
               obsArr := (BState.pollUnderlying pollSig (BState.clearWaker st i)).1.obsArr.set i
                 ⟨false, o2.waker, o2.alive⟩ },
           (BState.pollUnderlying pollSig (BState.clearWaker st i)).2)
        else
          (Async.Pending,
           { (BState.pollUnderlying pollSig (BState.clearWaker st i)).1 with
               obsArr := (BState.pollUnderlying pollSig (BState.clearWaker st i)).1.obsArr.set i
                 ⟨o2.hasChanged, some w, o2.alive⟩ },
           (BState.pollUnderlying pollSig (BState.clearWaker st i)).2) := by
  have hpu2 : (BState.pollUnderlying pollSig (BState.clearWaker st i)).1.obsArr[i]? = some o2 := by
    simpa using hpu
  simp [BState.pollChange, hpu2]

/-- Claim C8 (amended): a broadcaster observer's stored waker is cleared
at the start of its poll, so a poll returning `Ready` leaves the waker
slot empty and a poll returning `Pending` leaves exactly the caller's
handle.  A change-cell observer's poll does NOT clear the slot at the
start: a poll returning `Ready` leaves the slot exactly as it was before
the poll, and only a poll returning `Pending` stores the caller's handle,
replacing any previous one (the slot is a single option, so at most one
handle is ever stored). -/
theorem poll_waker_discipline (σ α : Type) (pollSig : σ → Async (Option α) × σ)
    (st : BState σ α) (c : MutCell α) (i w j w2 : Nat) (ob : BObs) (om : MutObs)
    (hb : st.obsArr.get? i = some ob) (hm : c.obs.get? j = some om) :
    ((∀ v, (BState.pollChange pollSig st i w).1 = Async.Ready v →
        ((BState.pollChange pollSig st i w).2.1.obsArr.get? i).map BObs.waker = some none)
    ∧ ((BState.pollChange pollSig st i w).1 = Async.Pending →
        ((BState.pollChange pollSig st i w).2.1.obsArr.get? i).map BObs.waker = some (some w)))
    ∧ ((∀ v, (MutCell.pollChange c j w2).1 = Async.Ready v →
        ((MutCell.pollChange c j w2).2.obs.get? j).map MutObs.waker = some om.waker)
    ∧ ((MutCell.pollChange c j w2).1 = Async.Pending →
        ((MutCell.pollChange c j w2).2.obs.get? j).map MutObs.waker = some (some w2))) := by
  constructor
  · have hcw : BState.clearWaker st i
        = { st with obsArr := st.obsArr.set i ⟨ob.hasChanged, none, ob.alive⟩ } := by
      simp only [BState.clearWaker, hb]
    have hst0 : (BState.clearWaker st i).obsArr.get? i
        = some ⟨ob.hasChanged, none, ob.alive⟩ := by
      rw [hcw]
      exact List.get?_set_eq_of_lt _ (lt_length_of_get_some _ _ _ hb)
    obtain ⟨b, hpu0⟩ := pollUnderlying_waker_none pollSig (BState.clearWaker st i) i
      ⟨ob.hasChanged, none, ob.alive⟩ hst0 rfl
    have hpu : (BState.pollUnderlying pollSig (BState.clearWaker st i)).1.obsArr.get? i
        = some ⟨b, none, ob.alive⟩ := hpu0
    have hlt : i < (BState.pollUnderlying pollSig (BState.clearWaker st i)).1.obsArr.length :=
      lt_length_of_get_some _ _ _ hpu
    rw [bPollChange_of_get pollSig st i w ⟨b, none, ob.alive⟩ hpu]
    cases b with
    | true =>
      constructor
      · intro v _
        show (((BState.pollUnderlying pollSig (BState.clearWaker st i)).1.obsArr.set i
            ⟨false, none, ob.alive⟩).get? i).map BObs.waker = some none
        rw [List.get?_set_eq_of_lt _ hlt]
        rfl
      · intro hpend
        simp at hpend
    | false =>
      constructor
      · intro v hready
        simp at hready
      · intro _
        show (((BState.pollUnderlying pollSig (BState.clearWaker st i)).1.obsArr.set i
            ⟨false, some w, ob.alive⟩).get? i).map BObs.waker = some (some w)
        rw [List.get?_set_eq_of_lt _ hlt]
        rfl
  · by_cases hf : om.hasChanged = true
    · rw [pollChange_ready c j w2 om hm hf]
      constructor
      · intro v _
        show ((c.obs.set j ⟨false, om.waker, om.alive⟩).get? j).map MutObs.waker = some om.waker
        rw [List.get?_set_eq_of_lt _ (lt_length_of_get_some _ _ _ hm)]
        rfl
      · intro hpend
        exact Async.noConfusion hpend
    · have hf2 : om.hasChanged = false := by simpa using hf
      by_cases hz : c.senders = 0
      · rw [pollChange_terminated c j w2 om hm hf2 hz]
        constructor
        · intro v _
          show ((c.obs.set j ⟨false, om.waker, om.alive⟩).get? j).map MutObs.waker = some om.waker
          rw [List.get?_set_eq_of_lt _ (lt_length_of_get_some _ _ _ hm)]
          rfl
        · intro hpend
          exact Async.noConfusion hpend
      · rw [pollChange_pending c j w2 om hm hf2 hz]
        constructor
        · intro v hready
          exact Async.noConfusion hready
        · intro _
          show ((c.obs.set j ⟨false, some w2, om.alive⟩).get? j).map MutObs.waker
            = some (some w2)
          rw [List.get?_set_eq_of_lt _ (lt_length_of_get_some _ _ _ hm)]
          rfl

/-- Witness for `poll_waker_discipline`: a fresh broadcaster observer
(poll returns `Ready`, waker slot left empty) and a change-cell observer
with a pending change and a parked waker (poll returns changed, the stale
waker 7 is left in place). -/
theorem poll_waker_discipline_witness :
    ((BState.pollChange countSig ((Broadcaster.new 0 : BState Nat Nat).newObserver).2 0 5).2.1.obsArr.get? 0).map BObs.waker
      = some none
    ∧ ((MutCell.pollChange (⟨0, 1, [0], [⟨true, some 7, true⟩]⟩ : MutCell Nat) 0 9).2.obs.get? 0).map MutObs.waker
      = some (some 7) := by
  have h := poll_waker_discipline Nat Nat countSig
    ((Broadcaster.new 0 : BState Nat Nat).newObserver).2
    (⟨0, 1, [0], [⟨true, some 7, true⟩]⟩ : MutCell Nat) 0 5 0 9
    ⟨true, none, true⟩ ⟨true, some 7, true⟩ rfl rfl
  exact ⟨h.1.1 none (by decide), h.2.1 (some 0) (by decide)⟩

/-- Claim C2: wrapping a Signal whose poll returns `Pending` in a fresh
`Broadcaster` and deriving an observer, the observer's first poll returns
`Ready none` (the terminated result): the observer's has-changed flag is
born true while the shared cached value slot is still absent. -/
theorem broadcaster_fresh_observer_first_poll_ready_none (σ α : Type)
    (pollSig : σ → Async (Option α) × σ) (s s2 : σ) (w : Nat)
    (h : pollSig s = (Async.Pending, s2)) :
    (BState.pollChange pollSig ((Broadcaster.new s : BState σ α).newObserver).2
        ((Broadcaster.new s : BState σ α).newObserver).1 w).1 = Async.Ready none := by
  simp [BState.pollChange, BState.clearWaker, BState.pollUnderlying, BState.newObserver,
    Broadcaster.new, h]

/-- Witness for `broadcaster_fresh_observer_first_poll_ready_none` at the
counting always-`Pending` signal. -/
theorem broadcaster_fresh_observer_witness :
    countSig 0 = (Async.Pending, 1)
    ∧ (BState.pollChange countSig ((Broadcaster.new 0 : BState Nat Nat).newObserver).2
        ((Broadcaster.new 0 : BState Nat Nat).newObserver).1 4).1 = Async.Ready none :=
  ⟨rfl, broadcaster_fresh_observer_first_poll_ready_none Nat Nat countSig 0 1 4 rfl⟩

/-- Clearing an observer's waker touches only the observer store. -/
theorem clearWaker_state {σ α : Type} (st : BState σ α) (i : Nat) :
    (BState.clearWaker st i).sig = st.sig
    ∧ (BState.clearWaker st i).isWaiting = st.isWaiting := by
  cases h : st.obsArr.get? i with
  | none =>
    have h2 : st.obsArr[i]? = none := by simpa using h
    constructor <;> simp [BState.clearWaker, h2]
  | some o =>
    have h2 : st.obsArr[i]? = some o := by simpa using h
    constructor <;> simp [BState.clearWaker, h2]

/-- Calling `poll_underlying` while a poll is already outstanding does nothing:
the test-and-set of `is_waiting` finds it set and returns untouched. -/
theorem pollUnderlying_waiting {σ α : Type} (pollSig : σ → Async (Option α) × σ)
    (st : BState σ α) (hwait : st.isWaiting = true) :
    BState.pollUnderlying pollSig st = (st, []) := by
  simp [BState.pollUnderlying, hwait]

/-- An observer poll changes the shared signal state and `is_waiting`
flag only through `poll_underlying`. -/
theorem bPollChange_state {σ α : Type} (pollSig : σ → Async (Option α) × σ)
    (st : BState σ α) (i w : Nat) :
    (BState.pollChange pollSig st i w).2.1.sig
        = (BState.pollUnderlying pollSig (BState.clearWaker st i)).1.sig
    ∧ (BState.pollChange pollSig st i w).2.1.isWaiting
        = (BState.pollUnderlying pollSig (BState.clearWaker st i)).1.isWaiting := by
  cases h : (BState.pollUnderlying pollSig (BState.clearWaker st i)).1.obsArr.get? i with
  | none =>
    have h2 : (BState.pollUnderlying pollSig (BState.clearWaker st i)).1.obsArr[i]? = none := by
      simpa using h
    constructor <;> simp [BState.pollChange, h2]
  | some o2 =>
    rw [bPollChange_of_get pollSig st i w o2 h]
    by_cases hf : o2.hasChanged = true <;> simp [hf]

/-- While a poll of the wrapped signal is outstanding, an observer poll
leaves the wrapped signal's state untouched and the flag set. -/
theorem bPollChange_waiting {σ α : Type} (pollSig : σ → Async (Option α) × σ)
    (st : BState σ α) (i w : Nat) (hwait : st.isWaiting = true) :
    (BState.pollChange pollSig st i w).2.1.sig = st.sig
    ∧ (BState.pollChange pollSig st i w).2.1.isWaiting = true := by
  have hcw := clearWaker_state st i
  have hwait0 : (BState.clearWaker st i).isWaiting = true := by rw [hcw.2]; exact hwait
  have hid := pollUnderlying_waiting pollSig (BState.clearWaker st i) hwait0
  obtain ⟨hsig, hw⟩ := bPollChange_state pollSig st i w
  rw [hid] at hsig hw
  exact ⟨by rw [hsig]; exact hcw.1, by rw [hw]; exact hwait0⟩

/-- The first observer poll against the counting always-`Pending` signal
polls it exactly once and leaves the is-waiting flag set. -/
theorem bPollChange_first (st : BState Nat Nat) (i w : Nat) (hwait : st.isWaiting = false) :
    (BState.pollChange countSig st i w).2.1.sig = st.sig + 1
    ∧ (BState.pollChange countSig st i w).2.1.isWaiting = true := by
  have hcw := clearWaker_state st i
  have hpu : BState.pollUnderlying countSig (BState.clearWaker st i)
      = ({ BState.clearWaker st i with
            sig := (BState.clearWaker st i).sig + 1, isWaiting := true }, []) := by
    simp [BState.pollUnderlying, countSig, hcw.2, hwait]
  obtain ⟨hsig, hw⟩ := bPollChange_state countSig st i w
  rw [hpu] at hsig hw
  refine ⟨?_, by rw [hw]⟩
  rw [hsig]
  show (BState.clearWaker st i).sig + 1 = st.sig + 1
  rw [hcw.1]

/-- Driving any sequence of observer polls while the is-waiting flag is
set never re-polls the counting signal. -/
theorem driveAll_waiting (polls : List (Nat × Nat)) :
    ∀ st : BState Nat Nat, st.isWaiting = true →
      (driveAll polls st).sig = st.sig ∧ (driveAll polls st).isWaiting = true := by
  induction polls with
  | nil => intro st h; exact ⟨rfl, h⟩
  | cons p rest ih =>
    intro st h
    obtain ⟨h1, h2⟩ := bPollChange_waiting countSig st p.1 p.2 h
    obtain ⟨h3, h4⟩ := ih _ h2
    simp only [driveAll]
    exact ⟨by rw [h3, h1], h4⟩

/-- Deriving observers does not touch the wrapped signal or the flag. -/
theorem addObservers_state {σ α : Type} (k : Nat) :
    ∀ st : BState σ α, (addObservers k st).sig = st.sig
      ∧ (addObservers k st).isWaiting = st.isWaiting := by
  induction k with
  | zero => intro st; exact ⟨rfl, rfl⟩
  | succ n ih =>
    intro st
    obtain ⟨h1, h2⟩ := ih (BState.newObserver st).2
    simp only [addObservers]
    exact ⟨h1.trans (by simp [BState.newObserver]), h2.trans (by simp [BState.newObserver])⟩

/-- Claim C1: while a poll of the wrapped signal is outstanding
(`is_waiting` set), `poll_underlying` returns without touching the
wrapped signal; consequently, driving any number of derived observers of
a fresh broadcaster through any nonempty sequence of polls against an
always-`Pending` counting signal polls the wrapped signal exactly once. -/
theorem broadcaster_polls_underlying_once :
    (∀ (σ α : Type) (pollSig : σ → Async (Option α) × σ) (st : BState σ α),
        st.isWaiting = true → BState.pollUnderlying pollSig st = (st, []))
    ∧ ∀ (k : Nat) (polls : List (Nat × Nat)), polls ≠ [] →
        (driveAll polls (addObservers k (Broadcaster.new 0))).sig = 1 := by
  constructor
  · intro σ α pollSig st h
    exact pollUnderlying_waiting pollSig st h
  · intro k polls hne
    cases polls with
    | nil => exact absurd rfl hne
    | cons p rest =>
      have hstart := addObservers_state k (Broadcaster.new 0 : BState Nat Nat)
      have hsig0 : (addObservers k (Broadcaster.new 0 : BState Nat Nat)).sig = 0 := hstart.1
      have hw0 : (addObservers k (Broadcaster.new 0 : BState Nat Nat)).isWaiting = false :=
        hstart.2
      obtain ⟨h1, h2⟩ := bPollChange_first _ p.1 p.2 hw0
      simp only [driveAll]
      obtain ⟨h3, _⟩ := driveAll_waiting rest _ h2
      rw [h3, h1, hsig0]

/-- Witness for `broadcaster_polls_underlying_once`: three observers each
driven to their first poll; the counting signal is polled once. -/
theorem broadcaster_polls_underlying_once_witness :
    ([((0 : Nat), (0 : Nat)), (1, 0), (2, 0)] ≠ ([] : List (Nat × Nat)))
    ∧ (driveAll [(0, 0), (1, 0), (2, 0)] (addObservers 3 (Broadcaster.new 0))).sig = 1 :=
  ⟨by decide, broadcaster_polls_underlying_once.2 3 [(0, 0), (1, 0), (2, 0)] (by decide)⟩
